import Mathlib

/-!
Verification development for the OpenPulse ETL / health-scoring pipeline
(`scripts/openpulse_etl.py`, `scripts/healthscore.py`,
`scripts/export_dashboard_json.py`).

The Python code is shallowly embedded: JSON values become an inductive
type, pandas tables become association-list rows, numeric values are
modelled as exact rationals (`ℚ`), and Python `None`/`NaN` becomes
`Option.none`.  Fallible Python code (exceptions such as `KeyError`,
`AttributeError`, or `float(...)` coercion failures) is modelled with
`Option`, where `none` means the run aborts with an exception.
-/

namespace OpenPulse

/-- `omap f l` is the embedding of a Python comprehension that applies a
fallible operation to every element: it fails (raises) as soon as one
element fails. -/
def omap {α β : Type} (f : α → Option β) : List α → Option (List β)
  | [] => some []
  | x :: xs =>
    match f x, omap f xs with
    | some y, some ys => some (y :: ys)
    | _, _ => none

theorem omap_mem {α β : Type} {f : α → Option β} {l : List α} {ys : List β}
    (h : omap f l = some ys) : ∀ y ∈ ys, ∃ x ∈ l, f x = some y := by
  induction l generalizing ys with
  | nil =>
    simp only [omap, Option.some.injEq] at h
    subst h; intro y hy; cases hy
  | cons x xs ih =>
    simp only [omap] at h
    cases hfx : f x with
    | none => rw [hfx] at h; cases h
    | some y0 =>
      rw [hfx] at h
      cases hrest : omap f xs with
      | none => rw [hrest] at h; cases h
      | some ys0 =>
        rw [hrest] at h
        cases h
        intro y hy
        rcases List.mem_cons.mp hy with h1 | h2
        · exact ⟨x, List.mem_cons_self x xs, h1 ▸ hfx⟩
        · rcases ih hrest y h2 with ⟨x', hx', hfx'⟩
          exact ⟨x', List.mem_cons_of_mem x hx', hfx'⟩

/-- `s.startswith(p)` on Python strings. -/
def strStartsWith (s p : String) : Bool := p.data.isPrefixOf s.data

/-- `s.endswith(p)` on Python strings. -/
def strEndsWith (s p : String) : Bool := p.data.isSuffixOf s.data

/-- Character-level worker for Python `str.replace`: replaces
non-overlapping occurrences of `pat` left to right.  The `fuel`
argument (instantiated with the string length, an upper bound on the
number of steps since every step consumes at least one character when
`pat` is nonempty) keeps the recursion structural. -/
def replChars (pat rep : List Char) : Nat → List Char → List Char
  | _, [] => []
  | 0, l => l
  | fuel + 1, c :: cs =>
    if pat ≠ [] ∧ pat.isPrefixOf (c :: cs) then
      rep ++ replChars pat rep fuel ((c :: cs).drop pat.length)
    else
      c :: replChars pat rep fuel cs

/-- Python `s.replace(pat, rep)`. -/
def pyReplace (s pat rep : String) : String :=
  ⟨replChars pat.data rep.data s.data.length s.data⟩

/-- Python `k[:-4]`. -/
def dropLast4 (k : String) : String := ⟨k.data.take (k.data.length - 4)⟩

/-- `MONTH_RE.match(s)` for `MONTH_RE = re.compile(r"^\d{4}-\d{2}$")`,
with Python semantics: `re.match` anchors at the start, and `$` accepts
either the end of the string or a position just before one final
newline. -/
def monthMatch (s : String) : Bool :=
  match s.data with
  | [a, b, c, d, dash, e, f] =>
    a.isDigit && b.isDigit && c.isDigit && d.isDigit &&
      (dash == '-') && e.isDigit && f.isDigit
  | [a, b, c, d, dash, e, f, nl] =>
    a.isDigit && b.isDigit && c.isDigit && d.isDigit &&
      (dash == '-') && e.isDigit && f.isDigit && (nl == '\n')
  | _ => false

/-- Shallow JSON values.  Only the shapes the parser inspects are
distinguished; `float(...)` coercion is modelled as succeeding exactly on
numbers (numeric strings, which Python would also coerce, do not occur in
these metric files and are not modelled). -/
inductive J where
  | num (q : ℚ)
  | str (s : String)
  | obj (entries : List (String × J))
  | other

/-- Python `float(v)` on a JSON value; `none` is the `ValueError`/`TypeError`. -/
def pyFloat : J → Option ℚ
  | .num q => some q
  | _ => none

/-- `.items()` on a value expected to be a dict; `none` is the
`AttributeError` raised on anything else. -/
def objItems : J → Option (List (String × J))
  | .obj e => some e
  | _ => none

/-- Python `obj.get(k, d)` on a dict given as an association list. -/
def pyGet (l : List (String × J)) (k : String) (d : J) : J :=
  (l.lookup k).getD d

/-- `detect_metrics_layout` from `openpulse_etl.py`. -/
def detect_metrics_layout (j : J) : String :=
  match j with
  | .obj l =>
    match l.lookup "avg" with
    | some (.obj _) => "avg_quantile"
    | _ =>
      if ((l.map Prod.fst).take 5).any monthMatch then "series" else "unknown"
  | _ => "unknown"

/-- `METRICS_FILE_MAP` from `openpulse_etl.py`. -/
def METRICS_FILE_MAP : List (String × String) :=
  [("participants.json", "kpi_active_contributors_month"),
   ("new_contributors.json", "kpi_new_contributors_month"),
   ("inactive_contributors.json", "kpi_inactive_contributors_month"),
   ("bus_factor.json", "bus_factor"),
   ("issues_new.json", "kpi_new_issues_month"),
   ("issues_closed.json", "kpi_closed_issues_month"),
   ("change_requests.json", "kpi_new_prs_month"),
   ("change_requests_accepted.json", "kpi_merged_prs_month"),
   ("activity.json", "kpi_activity"),
   ("openrank.json", "kpi_openrank"),
   ("attention.json", "kpi_attention"),
   ("technical_fork.json", "kpi_technical_fork"),
   ("code_change_lines_sum.json", "kpi_code_change_lines_month"),
   ("issue_response_time.json", "lat_issue_response"),
   ("issue_resolution_duration.json", "lat_issue_resolution"),
   ("change_request_response_time.json", "lat_pr_response"),
   ("change_request_resolution_duration.json", "lat_pr_resolution"),
   ("stars.json", "stars")]

/-- One parsed metric series: month key to value. -/
abbrev MSeries := List (String × ℚ)

/-- The dict comprehension `{m: float(v) for m, v in l.items() if
MONTH_RE.match(m)}`. -/
def floatItems (l : List (String × J)) : Option MSeries :=
  omap (fun kv => (pyFloat kv.2).map (fun q => (kv.1, q)))
    (l.filter (fun kv => monthMatch kv.1))

/-- The `-raw`-suffix loop of the stars branch of `parse_metric_file`:
keys ending in `-raw` whose stripped form is a month key. -/
def starsRaw (l : List (String × J)) : Option MSeries :=
  omap (fun kv => (pyFloat kv.2).map (fun q => (dropLast4 kv.1, q)))
    (l.filter (fun kv => strEndsWith kv.1 "-raw" && monthMatch (dropLast4 kv.1)))

/-- The `stars.json` branch of `parse_metric_file` (runs for any dict
input, regardless of detected layout). -/
def parseStars (l : List (String × J)) : Option (List (String × MSeries)) :=
  match floatItems l, starsRaw l with
  | some delta, some raw =>
    some ((if delta = [] then [] else [("kpi_stars_delta_month", delta)]) ++
          (if raw = [] then [] else [("kpi_stars_total", raw)]))
  | _, _ => none

/-- The general (non-latency, non-stars) tail of `parse_metric_file`. -/
def parseGeneral (key layout : String) (j : J) : Option (List (String × MSeries)) :=
  if layout = "series" then
    match j with
    | .obj l => (floatItems l).map (fun s => [(key, s)])
    | _ => none
  else if layout = "avg_quantile" then
    match j with
    | .obj l =>
      (objItems (pyGet l "avg" (J.obj []))).bind
        (fun ai => (floatItems ai).map (fun s => [(key, s)]))
    | _ => none
  else some []

/-- `key.replace("lat_", "")`. -/
def latKeyBase (key : String) : String := pyReplace key "lat_" ""

/-- `parse_metric_file` from `openpulse_etl.py` (the file's JSON value is
passed in already read).  `none` models an uncaught exception. -/
def parse_metric_file (fname : String) (j : J) : Option (List (String × MSeries)) :=
  let layout := detect_metrics_layout j
  match METRICS_FILE_MAP.lookup fname with
  | none => some []
  | some key =>
    if strStartsWith key "lat_" then
      if layout = "avg_quantile" then
        match j with
        | .obj l =>
          match objItems (pyGet l "avg" (J.obj [])),
                objItems (pyGet l "quantile_2" (pyGet l "quantile_1" (J.obj []))) with
          | some ai, some qi =>
            match floatItems ai, floatItems qi with
            | some s1, some s2 =>
              some [("lat_" ++ latKeyBase key ++ "_avg", s1),
                    ("lat_" ++ latKeyBase key ++ "_median", s2)]
            | _, _ => none
          | _, _ => none
        | _ => none
      else if layout = "series" then
        match j with
        | .obj l => (floatItems l).map (fun s => [(key ++ "_avg", s)])
        | _ => none
      else some []
    else if fname = "stars.json" then
      match j with
      | .obj l => parseStars l
      | _ => parseGeneral key layout j
    else parseGeneral key layout j

/-! ### Repository-directory scanner (`find_repo_dirs`) -/

/-- A directory tree: a name, the plain files directly inside, and the
subdirectories. -/
inductive FsDir where
  | node (name : String) (files : List String) (subs : List FsDir)

mutual

/-- `os.walk` over the tree, top-down, collecting `(path, files)` for
every directory (`os.walk` descends into every directory; the source
never prunes the `dirs` list). -/
def walkFs (pre : String) : FsDir → List (String × List String)
  | .node n fs subs => (pre ++ n, fs) :: walkFsList (pre ++ n ++ "/") subs

/-- Worker of `walkFs` over a list of subdirectories, in order. -/
def walkFsList (pre : String) : List FsDir → List (String × List String)
  | [] => []
  | d :: ds => walkFs pre d ++ walkFsList pre ds

end

/-- `len(list(root_p.glob("*.json")))`: the number of direct files with a
`.json` extension (`pathlib.Path.glob` matches dotfiles too, so this
coincides with counting `f.endswith(".json")`). -/
def countJson (files : List String) : Nat :=
  (files.filter (fun f => strEndsWith f ".json")).length

/-- The classification test of `find_repo_dirs`: some `.json` file exists
and the `glob` count is at least 5. -/
def isRepoDirEntry (e : String × List String) : Bool :=
  (e.2.any (fun f => strEndsWith f ".json")) && decide (5 ≤ countJson e.2)

/-- Lexicographic comparison of character lists by code point, the order
Python uses to sort path strings. -/
def lexLe : List Char → List Char → Bool
  | [], _ => true
  | _ :: _, [] => false
  | a :: as, b :: bs => if a = b then lexLe as bs else decide (a.toNat < b.toNat)

/-- Python `sorted` order on path strings. -/
def strLe (a b : String) : Bool := lexLe a.data b.data

/-- `find_repo_dirs` from `openpulse_etl.py`, on the directory-tree
model: walk every directory, keep those passing the heuristic, return
them sorted. -/
def find_repo_dirs (root : FsDir) : List String :=
  List.insertionSort (fun a b => strLe a b = true)
    (((walkFs "" root).filter isRepoDirEntry).map Prod.fst)

/-! ### Health scorer (`healthscore.py`)

Rows of the canonical KPI table are association lists from column name to
an optional rational; `none` is pandas `NaN` (the `main` of
`healthscore.py` first replaces `±inf` by `NaN`, so non-finite values
need no separate representation).  A pandas DataFrame additionally
carries its column list: a column can be present in the frame while a
given row holds `NaN` for it. -/

/-- One row of the KPI table. -/
abbrev Row := List (String × Option ℚ)

/-- A pandas DataFrame: column list plus rows. -/
structure DF where
  cols : List String
  rows : List Row
deriving DecidableEq

/-- `row[col]`: the cell of a row (a column absent from the association
list reads as `NaN`). -/
def cell (r : Row) (c : String) : Option ℚ :=
  (r.lookup c).getD none

/-- Column assignment `df[c] = f(row)` : updates every row and adds the
column name if new.  Prepending shadows any previous binding, matching
pandas overwrite semantics for `lookup`. -/
def setCol (df : DF) (c : String) (f : Row → Option ℚ) : DF :=
  { cols := if c ∈ df.cols then df.cols else df.cols ++ [c],
    rows := df.rows.map (fun r => (c, f r) :: r) }

/-- Metric direction: `POS`/`NEG` from `healthscore.py`. -/
inductive Sign where
  | pos
  | neg
deriving DecidableEq

/-- `DIM_DEF["A"]`. -/
def dimA : List (String × Sign) :=
  [("kpi_activity", .pos),
   ("kpi_new_issues_month", .pos),
   ("kpi_new_prs_month", .pos),
   ("kpi_active_contributors_month", .pos)]

/-- `DIM_DEF["R"]`. -/
def dimR : List (String × Sign) :=
  [("lat_issue_response_median", .neg),
   ("lat_issue_resolution_median", .neg),
   ("lat_pr_response_median", .neg),
   ("lat_pr_resolution_median", .neg)]

/-- `DIM_DEF["C"]`. -/
def dimC : List (String × Sign) :=
  [("kpi_active_contributors_month", .pos),
   ("kpi_new_contributors_month", .pos),
   ("kpi_inactive_contributors_month", .neg),
   ("bus_factor", .pos)]

/-- `DIM_DEF["T"]`. -/
def dimT : List (String × Sign) :=
  [("kpi_stars_delta_month", .pos),
   ("kpi_technical_fork", .pos),
   ("kpi_attention", .pos)]

/-- `DIM_DEF["S"]`. -/
def dimS : List (String × Sign) :=
  [("kpi_openrank", .pos),
   ("kpi_release_count_month", .pos),
   ("kpi_code_change_lines_month_abs", .pos)]

/-- All `(metric, sign)` pairs of all five dimensions. -/
def allDimItems : List (String × Sign) :=
  dimA ++ dimR ++ dimC ++ dimT ++ dimS

/-- `safe_minmax` from `healthscore.py`. -/
def safe_minmax (x : Option ℚ) (vmin vmax : ℚ) : ℚ :=
  match x with
  | none => 1 / 2
  | some v =>
    if vmax ≤ vmin then 1 / 2
    else max 0 (min 1 ((v - vmin) / (vmax - vmin)))

/-- Normalization statistics, one `(min, max)` pair per column key. -/
abbrev Stats := List (String × (ℚ × ℚ))

/-- The finite values of a column across all rows (`NaN` dropped; `inf`
was already replaced by `NaN` upstream). -/
def colValues (df : DF) (c : String) : List ℚ :=
  df.rows.filterMap (fun r => cell r c)

/-- `compute_stats` from `healthscore.py`. -/
def compute_stats (df : DF) (cols : List String) : Stats :=
  cols.map (fun c =>
    match colValues df c with
    | [] => (c, (0, 1))
    | v :: vs => (c, (vs.foldl min v, vs.foldl max v)))

/-- One metric's (possibly sign-inverted) contribution for one row:
`0.5` when the column is absent from the frame, otherwise
`safe_minmax(row[col], stats[col]...)`; `none` models the `KeyError`
raised when the column is present but `stats` has no entry for it. -/
def itemVal (cols : List String) (stats : Stats) (r : Row) (col : String)
    (sg : Sign) : Option ℚ :=
  let base : Option ℚ :=
    if col ∈ cols then
      match stats.lookup col with
      | none => none
      | some (mn, mx) => some (safe_minmax (cell r col) mn mx)
    else some (1 / 2)
  base.map (fun v => match sg with | .pos => v | .neg => 1 - v)

/-- The inner accumulation loop of a dimension: `acc += w * v`. -/
def dimGo (cols : List String) (stats : Stats) (r : Row) (w : ℚ) :
    List (String × Sign) → ℚ → Option ℚ
  | [], acc => some acc
  | (c, sg) :: rest, acc =>
    match itemVal cols stats r c sg with
    | none => none
    | some v => dimGo cols stats r w rest (acc + w * v)

/-- One dimension's score for one row (`w = 1.0 / len(items)`). -/
def dimScore (cols : List String) (stats : Stats) (r : Row)
    (items : List (String × Sign)) : Option ℚ :=
  dimGo cols stats r (1 / (items.length : ℚ)) items 0

/-- The column names written by the scoring loop, in write order. -/
def scoreColNames : List String :=
  ["score_A", "score_R", "score_C", "score_T", "score_S",
   "health_H", "health_score"]

/-- Appends the five dimension scores, `health_H` and `health_score` to a
row, with the fixed `DIM_WEIGHTS` and the final `clip(·, 0, 100)`. -/
def buildScored (r : Row) (a b c t s : ℚ) : Row :=
  let h : ℚ := 0.25 * a + 0.25 * b + 0.20 * c + 0.10 * t + 0.20 * s
  let hs : ℚ := max 0 (min 100 (100 * h))
  ("health_score", some hs) :: ("health_H", some h) ::
    ("score_S", some s) :: ("score_T", some t) :: ("score_C", some c) ::
    ("score_R", some b) :: ("score_A", some a) :: r

/-- Per-row body of the scoring loops of `compute_scores`: the five
dimension scores (failing on the first `KeyError`), then the composite. -/
def scoreRow (cols : List String) (stats : Stats) (r : Row) : Option Row :=
  match dimScore cols stats r dimA, dimScore cols stats r dimR,
        dimScore cols stats r dimC, dimScore cols stats r dimT,
        dimScore cols stats r dimS with
  | some a, some b, some c, some t, some s => some (buildScored r a b c t s)
  | _, _, _, _, _ => none

/-- Adds a column name if missing. -/
@[irreducible] def addColName (cs : List String) (c : String) : List String :=
  if c ∈ cs then cs else cs ++ [c]

/-- Final step of `compute_scores`: score every row of the prepared
frame and append the score column names. -/
def assembleScores (cols : List String) (stats : Stats) (rows : List Row) :
    Option DF :=
  match omap (scoreRow cols stats) rows with
  | none => none
  | some rows2 =>
    some { cols := scoreColNames.foldl addColName cols, rows := rows2 }

/-- `compute_scores` from `healthscore.py`: derive the absolute
code-change column (all-`NaN` when the base column is absent), apply the
release-count fallback, then score every row.  `none` models the
`KeyError` crash. -/
def compute_scores (df : DF) (stats : Stats) : Option DF :=
  let df1 :=
    if "kpi_code_change_lines_month" ∈ df.cols then
      setCol df "kpi_code_change_lines_month_abs"
        (fun r => (cell r "kpi_code_change_lines_month").map (fun v => |v|))
    else
      setCol df "kpi_code_change_lines_month_abs" (fun _ => none)
  let df2 :=
    if "kpi_release_count_month" ∉ df1.cols ∧
        "kpi_release_count_month_log" ∈ df1.cols then
      setCol df1 "kpi_release_count_month"
        (fun r => cell r "kpi_release_count_month_log")
    else df1
  assembleScores df2.cols stats df2.rows

/-- The distinct metric columns referenced by any dimension (the
`all_cols` set of `healthscore.main`, which also inserts
`kpi_code_change_lines_month_abs` — already a member via `DIM_DEF["S"]`). -/
def allDimCols : List String :=
  ((allDimItems.map Prod.fst) ++ ["kpi_code_change_lines_month_abs"]).dedup

/-- The scoring pipeline of `healthscore.main` after reading the parquet
(and after the `±inf → NaN` replacement): pre-derive the absolute
code-change column when its base exists, compute stats over the
referenced columns that are present, then `compute_scores`. -/
def healthMain (df0 : DF) : Option DF :=
  let df1 :=
    if "kpi_code_change_lines_month" ∈ df0.cols then
      setCol df0 "kpi_code_change_lines_month_abs"
        (fun r => (cell r "kpi_code_change_lines_month").map (fun v => |v|))
    else df0
  let colsPresent := allDimCols.filter (fun c => c ∈ df1.cols)
  let stats := compute_stats df1 colsPresent
  compute_scores df1 stats

/-! ### KPI merge (`openpulse_etl.main`, steps 5 and the `_log` handling)

Both input views key rows by `(repo_name, month)`, unique per view by
construction (the metrics aggregator emits one row per month dict entry,
the log aggregate is a SQL `GROUP BY`). -/

/-- One `(repo_name, month)` row of a KPI view. -/
structure KRow where
  repo : String
  month : String
  cells : List (String × Option ℚ)
deriving DecidableEq

/-- A KPI view: value columns plus rows. -/
structure KTable where
  cols : List String
  rows : List KRow
deriving DecidableEq

/-- A cell of a KPI row (absent reads as `NaN`). -/
def kcell (r : KRow) (c : String) : Option ℚ :=
  (r.cells.lookup c).getD none

/-- Writes one cell of a KPI row (prepending shadows older bindings). -/
def ksetCell (r : KRow) (c : String) (v : Option ℚ) : KRow :=
  { r with cells := (c, v) :: r.cells }

/-- `pd.merge(metrics_df, log_monthly_df, on=["repo_name","month"],
how="outer")`: matched rows concatenate their cells, unmatched rows keep
their own (the other view's columns read as `NaN`); left rows first, then
right-only rows. -/
def mergeOuter (m l : KTable) : KTable :=
  { cols := m.cols ++ l.cols.filter (fun c => c ∉ m.cols),
    rows :=
      m.rows.map (fun rm =>
        match l.rows.find? (fun rl => rl.repo = rm.repo ∧ rl.month = rm.month) with
        | some rl => { rm with cells := rm.cells ++ rl.cells }
        | none => rm) ++
      l.rows.filter (fun rl =>
        ¬ m.rows.any (fun rm => rm.repo = rl.repo ∧ rm.month = rl.month)) }

/-- The three concepts coalesced only when both columns exist
(lines 410–415 of `openpulse_etl.py`). -/
def coalescePairs : List String :=
  ["kpi_new_issues_month", "kpi_new_prs_month", "kpi_code_change_lines_month"]

/-- `coalesce(a, b) = a.where(~a.isna(), b)` at the cell level. -/
def qcoalesce (a b : Option ℚ) : Option ℚ :=
  match a with
  | some v => some v
  | none => b

/-- One guarded coalesce assignment
`if c in cols and c_log in cols: kpi[c] = coalesce(kpi[c], kpi[c_log])`. -/
def coalesceStep (cols : List String) (c : String) (r : KRow) : KRow :=
  if c ∈ cols ∧ (c ++ "_log") ∈ cols then
    ksetCell r c (qcoalesce (kcell r c) (kcell r (c ++ "_log")))
  else r

/-- The commits/release pattern: `kpi[c] = kpi.get(c_log)` when the
canonical column is absent, else `kpi[c] = coalesce(kpi[c], kpi.get(c_log))`
(`kpi.get` of an absent column reads as all-`NaN`). -/
def fallbackStep (cols : List String) (c : String) (r : KRow) : KRow :=
  if c ∈ cols then
    ksetCell r c (qcoalesce (kcell r c) (kcell r (c ++ "_log")))
  else
    ksetCell r c (kcell r (c ++ "_log"))

/-- The whole per-row coalesce block of `openpulse_etl.main`
(lines 410–426), in source order. -/
def coalesceRow (cols : List String) (r : KRow) : KRow :=
  fallbackStep cols "kpi_release_count_month"
    (fallbackStep cols "kpi_commits_month"
      (coalesceStep cols "kpi_code_change_lines_month"
        (coalesceStep cols "kpi_new_prs_month"
          (coalesceStep cols "kpi_new_issues_month" r))))

/-- Steps 5–6 of `openpulse_etl.main`: outer-join the two views and run
the coalesce block.  The commented-out `_log` drop is a no-op, so every
column of either view is retained. -/
def mergeAndCoalesce (m l : KTable) : KTable :=
  let t := mergeOuter m l
  { cols := addColName (addColName t.cols "kpi_commits_month")
      "kpi_release_count_month",
    rows := t.rows.map (coalesceRow t.cols) }

/-! ### Evidence extraction (`build_evidence_latest_month`)

Timestamps are modelled at minute granularity: a timestamp carries the
month produced by `strftime('%Y-%m')` (as an integer index) and its
absolute minute count, so `date_diff('minute', a, b) = b.minutes -
a.minutes`.  A `none` timestamp is a `try_cast(... AS TIMESTAMP)` that
returned `NULL`. -/

/-- A timestamp: its formatted month and absolute minutes. -/
structure Ts where
  month : Int
  minutes : Int
deriving DecidableEq

/-- One row of the raw event-log relation (only the columns the evidence
queries read). -/
structure LogRow where
  repo_name : Option String
  created_at : Option Ts
  type : String
  issue_id : Option Int
  issue_number : Option Int
  issue_title : Option String
  issue_created_at : Option Ts
  issue_comment_created_at : Option Ts
  issue_comment_author_id : Option Int
  pull_merged : Option Int
  pull_merged_at : Option Ts
  pull_additions : Option Int
  pull_deletions : Option Int
deriving DecidableEq

/-- Maximum of a list of integers, `none` on the empty list. -/
def listMaxInt : List Int → Option Int
  | [] => none
  | x :: xs => some (xs.foldl max x)

/-- Earliest of a list of timestamps (by minutes), `none` on empty:
`min(try_cast(...))` of an aggregation group. -/
def tsListMin : List Ts → Option Ts
  | [] => none
  | x :: xs => some (xs.foldl (fun a b => if b.minutes < a.minutes then b else a) x)

/-- Latest of a list of timestamps (by minutes), `none` on empty. -/
def tsListMax : List Ts → Option Ts
  | [] => none
  | x :: xs => some (xs.foldl (fun a b => if a.minutes < b.minutes then b else a) x)

/-- The `latest` query: per repository, the maximum formatted month over
rows with a parseable `created_at`. -/
def latestMonth (log : List LogRow) (rn : String) : Option Int :=
  listMaxInt (log.filterMap (fun r =>
    if r.repo_name = some rn then r.created_at.map (fun t => t.month) else none))

/-- Row qualifies for `issue_base` of repository `rn` in month `m`. -/
def issueBaseOk (rn : String) (m : Int) (r : LogRow) : Bool :=
  r.repo_name = some rn ∧ (r.created_at.map (fun t => t.month)) = some m ∧
    r.issue_id.isSome ∧ r.issue_created_at.isSome

/-- Row qualifies for `first_comment` of repository `rn` in month `m`. -/
def commentOk (rn : String) (m : Int) (r : LogRow) : Bool :=
  r.repo_name = some rn ∧ (r.created_at.map (fun t => t.month)) = some m ∧
    r.type = "IssueComment" ∧ r.issue_id.isSome ∧
    r.issue_comment_created_at.isSome ∧ r.issue_comment_author_id.isSome

/-- One emitted issue-slow-response evidence record. -/
structure IssueEv where
  repo : String
  month : Int
  issue_id : Int
  issue_number : Option Int
  issue_title : Option String
  issue_created_at : Ts
  first_comment_at : Ts
  response_hours : ℚ
deriving DecidableEq

/-- `any_value(x)` over a group: the first non-null value. -/
def anyValueInt (l : List (Option Int)) : Option Int := (l.filterMap id).head?

/-- `any_value` for string-valued columns. -/
def anyValueStr (l : List (Option String)) : Option String := (l.filterMap id).head?

/-- The joined `issue_base ⋈ first_comment` record for one issue id,
filtered by `first_comment_at >= issue_created_at` (note: `>=`, so
zero-elapsed pairs pass). -/
def mkIssueEv (log : List LogRow) (rn : String) (m : Int) (iid : Int) :
    Option IssueEv :=
  let grp := log.filter (fun r => issueBaseOk rn m r && (r.issue_id == some iid))
  let cgrp := log.filter (fun r => commentOk rn m r && (r.issue_id == some iid))
  match tsListMin (grp.filterMap (fun r => r.issue_created_at)),
        tsListMin (cgrp.filterMap (fun r => r.issue_comment_created_at)) with
  | some created, some fc =>
    if created.minutes ≤ fc.minutes then
      some { repo := rn, month := m, issue_id := iid,
             issue_number := anyValueInt (grp.map (fun r => r.issue_number)),
             issue_title := anyValueStr (grp.map (fun r => r.issue_title)),
             issue_created_at := created, first_comment_at := fc,
             response_hours := ((fc.minutes - created.minutes : Int) : ℚ) / 60 }
    else none
  | _, _ => none

/-- All issue evidence candidates of one repository (its latest month),
before ranking. -/
def issuePairs (log : List LogRow) (rn : String) : List IssueEv :=
  match latestMonth log rn with
  | none => []
  | some m =>
    (((log.filter (issueBaseOk rn m)).filterMap (fun r => r.issue_id)).dedup).filterMap
      (mkIssueEv log rn m)

/-- `ORDER BY response_hours DESC`, then `groupby(repo).head(topk)` with
`topk = 5`: pandas `groupby` preserves the sorted within-group order, so
one repository's emitted records are its candidates sorted by descending
hours, truncated to 5. -/
def emittedIssues (log : List LogRow) (rn : String) : List IssueEv :=
  (List.insertionSort (fun a b => b.response_hours ≤ a.response_hours)
    (issuePairs log rn)).take 5

/-- One emitted pr-slow-merge evidence record. -/
structure PrEv where
  repo : String
  month : Int
  issue_id : Int
  pr_number : Option Int
  pr_title : Option String
  pr_created_at : Ts
  pr_merged_at : Ts
  merge_hours : ℚ
  change_lines : Int
deriving DecidableEq

/-- Row qualifies for `pr_base` of repository `rn` in month `m`. -/
def prBaseOk (rn : String) (m : Int) (r : LogRow) : Bool :=
  r.repo_name = some rn ∧ (r.created_at.map (fun t => t.month)) = some m ∧
    r.type = "PullRequest" ∧ r.issue_id.isSome ∧
    r.issue_created_at.isSome ∧ (r.pull_merged.getD 0) = 1 ∧
    r.pull_merged_at.isSome

/-- The `pr_base` record for one PR id, filtered by
`pr_merged_at >= pr_created_at`. -/
def mkPrEv (log : List LogRow) (rn : String) (m : Int) (iid : Int) :
    Option PrEv :=
  let grp := log.filter (fun r => prBaseOk rn m r && (r.issue_id == some iid))
  match tsListMin (grp.filterMap (fun r => r.issue_created_at)),
        tsListMax (grp.filterMap (fun r => r.pull_merged_at)) with
  | some created, some merged =>
    if created.minutes ≤ merged.minutes then
      some { repo := rn, month := m, issue_id := iid,
             pr_number := anyValueInt (grp.map (fun r => r.issue_number)),
             pr_title := anyValueStr (grp.map (fun r => r.issue_title)),
             pr_created_at := created, pr_merged_at := merged,
             merge_hours := ((merged.minutes - created.minutes : Int) : ℚ) / 60,
             change_lines := (anyValueInt (grp.map (fun r => r.pull_additions))).getD 0 +
               (anyValueInt (grp.map (fun r => r.pull_deletions))).getD 0 }
    else none
  | _, _ => none

/-- All PR evidence candidates of one repository (its latest month). -/
def prPairs (log : List LogRow) (rn : String) : List PrEv :=
  match latestMonth log rn with
  | none => []
  | some m =>
    (((log.filter (prBaseOk rn m)).filterMap (fun r => r.issue_id)).dedup).filterMap
      (mkPrEv log rn m)

/-- The per-repository emitted PR records: sorted by descending merge
hours, truncated to `topk = 5`. -/
def emittedPrs (log : List LogRow) (rn : String) : List PrEv :=
  (List.insertionSort (fun a b => b.merge_hours ≤ a.merge_hours)
    (prPairs log rn)).take 5

/-! ### Concrete inputs used by counterexamples and witnesses -/

/-- A KPI table whose only column is `kpi_activity`: in particular
`kpi_code_change_lines_month` is absent. -/
def dfNoCodeChange : DF := ⟨["kpi_activity"], [[("kpi_activity", some 3)]]⟩

/-- A one-row table whose only column is the code-change base column,
holding `NaN`, so every dimension metric of the row is missing or null. -/
def dfAllMissing : DF :=
  ⟨["kpi_code_change_lines_month"], [[("kpi_code_change_lines_month", none)]]⟩

/-- The output `healthMain` produces on `dfAllMissing`. -/
def dfAllMissingOut : DF :=
  ⟨["kpi_code_change_lines_month", "kpi_code_change_lines_month_abs",
    "score_A", "score_R", "score_C", "score_T", "score_S",
    "health_H", "health_score"],
   [[("health_score", some 50), ("health_H", some (1/2)),
     ("score_S", some (1/2)), ("score_T", some (1/2)),
     ("score_C", some (1/2)), ("score_R", some (1/2)),
     ("score_A", some (1/2)),
     ("kpi_code_change_lines_month_abs", none),
     ("kpi_code_change_lines_month_abs", none),
     ("kpi_code_change_lines_month", none)]]⟩

/-- The single scored row of `dfAllMissingOut`. -/
def rowAllMissingOut : Row :=
  [("health_score", some 50), ("health_H", some (1/2)),
   ("score_S", some (1/2)), ("score_T", some (1/2)),
   ("score_C", some (1/2)), ("score_R", some (1/2)),
   ("score_A", some (1/2)),
   ("kpi_code_change_lines_month_abs", none),
   ("kpi_code_change_lines_month_abs", none),
   ("kpi_code_change_lines_month", none)]

/-- A `stars.json` value whose keys are all `-raw`-suffixed: no `avg`
key, no plain month key, so the detected layout is `unknown`. -/
def starsRawOnlyJson : J := .obj [("2024-01-raw", .num 5)]

/-- A metrics root with a repository bundle `A` (five JSON files) that
itself contains a nested directory `B` with five more JSON files. -/
def exTreeNested : FsDir :=
  .node "root" []
    [.node "A" ["a1.json", "a2.json", "a3.json", "a4.json", "a5.json"]
      [.node "B" ["b1.json", "b2.json", "b3.json", "b4.json", "b5.json"] []]]

/-- An all-null event-log row, for building concrete rows by update. -/
def blankRow : LogRow :=
  { repo_name := none, created_at := none, type := "", issue_id := none,
    issue_number := none, issue_title := none, issue_created_at := none,
    issue_comment_created_at := none, issue_comment_author_id := none,
    pull_merged := none, pull_merged_at := none, pull_additions := none,
    pull_deletions := none }

/-- An event log whose single issue receives its first comment at the
very minute of its creation (elapsed time zero). -/
def exLogZero : List LogRow :=
  [{ blankRow with
      repo_name := some "r", created_at := some ⟨1, 1000⟩,
      type := "IssuesEvent", issue_id := some 1, issue_number := some 11,
      issue_title := some "t", issue_created_at := some ⟨1, 500⟩ },
   { blankRow with
      repo_name := some "r", created_at := some ⟨1, 1001⟩,
      type := "IssueComment", issue_id := some 1,
      issue_comment_created_at := some ⟨1, 500⟩,
      issue_comment_author_id := some 9 }]

/-- The evidence record `exLogZero` produces. -/
def evZero : IssueEv :=
  { repo := "r", month := 1, issue_id := 1, issue_number := some 11,
    issue_title := some "t", issue_created_at := ⟨1, 500⟩,
    first_comment_at := ⟨1, 500⟩, response_hours := 0 }

/-- An event log with two issues whose first responses take exactly one
hour each, producing tied durations. -/
def exLogTie : List LogRow :=
  [{ blankRow with
      repo_name := some "r", created_at := some ⟨1, 10⟩,
      type := "IssuesEvent", issue_id := some 1, issue_created_at := some ⟨1, 0⟩ },
   { blankRow with
      repo_name := some "r", created_at := some ⟨1, 70⟩,
      type := "IssueComment", issue_id := some 1,
      issue_comment_created_at := some ⟨1, 60⟩, issue_comment_author_id := some 9 },
   { blankRow with
      repo_name := some "r", created_at := some ⟨1, 110⟩,
      type := "IssuesEvent", issue_id := some 2, issue_created_at := some ⟨1, 100⟩ },
   { blankRow with
      repo_name := some "r", created_at := some ⟨1, 170⟩,
      type := "IssueComment", issue_id := some 2,
      issue_comment_created_at := some ⟨1, 160⟩, issue_comment_author_id := some 9 }]

/-- The first tied evidence record of `exLogTie`. -/
def evTie1 : IssueEv :=
  { repo := "r", month := 1, issue_id := 1, issue_number := none,
    issue_title := none, issue_created_at := ⟨1, 0⟩,
    first_comment_at := ⟨1, 60⟩, response_hours := 1 }

/-- An event log with one merged pull request (2 hours to merge,
7 additions and 5 deletions). -/
def exLogPr : List LogRow :=
  [{ blankRow with
      repo_name := some "r", created_at := some ⟨1, 10⟩,
      type := "PullRequest", issue_id := some 3, issue_number := some 33,
      issue_created_at := some ⟨1, 0⟩, pull_merged := some 1,
      pull_merged_at := some ⟨1, 120⟩, pull_additions := some 7,
      pull_deletions := some 5 }]

/-- The PR evidence record `exLogPr` produces. -/
def evPr : PrEv :=
  { repo := "r", month := 1, issue_id := 3, pr_number := some 33,
    pr_title := none, pr_created_at := ⟨1, 0⟩, pr_merged_at := ⟨1, 120⟩,
    merge_hours := 2, change_lines := 12 }

/-- A two-row metrics view with one shared-concept column. -/
def mView : KTable :=
  ⟨["kpi_new_issues_month"],
   [⟨"r", "2024-01", [("kpi_new_issues_month", some 10)]⟩,
    ⟨"r", "2024-02", [("kpi_new_issues_month", none)]⟩]⟩

/-- The matching log view with all five `_log` columns. -/
def lView : KTable :=
  ⟨["kpi_commits_month_log", "kpi_new_issues_month_log", "kpi_new_prs_month_log",
    "kpi_release_count_month_log", "kpi_code_change_lines_month_log"],
   [⟨"r", "2024-01",
     [("kpi_commits_month_log", some 3), ("kpi_new_issues_month_log", some 7),
      ("kpi_new_prs_month_log", some 1), ("kpi_release_count_month_log", some 0),
      ("kpi_code_change_lines_month_log", some 20)]⟩,
    ⟨"r", "2024-02",
     [("kpi_commits_month_log", some 4), ("kpi_new_issues_month_log", some 8),
      ("kpi_new_prs_month_log", some 2), ("kpi_release_count_month_log", some 1),
      ("kpi_code_change_lines_month_log", some 30)]⟩]⟩

/-- The first joined row of `mergeOuter mView lView`. -/
def joinedRow1 : KRow :=
  ⟨"r", "2024-01",
   [("kpi_new_issues_month", some 10),
    ("kpi_commits_month_log", some 3), ("kpi_new_issues_month_log", some 7),
    ("kpi_new_prs_month_log", some 1), ("kpi_release_count_month_log", some 0),
    ("kpi_code_change_lines_month_log", some 20)]⟩

/-- An `avg_quantile` latency file with a `quantile_2` key. -/
def latAqJson : List (String × J) :=
  [("avg", .obj [("2024-01", .num 10)]), ("quantile_2", .obj [("2024-01", .num 6)])]

/-- A `series`-layout latency file. -/
def latSeriesJson : List (String × J) := [("2024-01", .num 3)]

/-! ## Theorems -/

/-- C3: the spec promises that a KPI metric column absent from the table
never fails the scoring run (it should contribute a neutral `0.5`), in
particular when `kpi_code_change_lines_month` is absent.  The code
violates this: on a nonempty table without that column, `compute_scores`
creates the derived `_abs` column as all-`NaN`, but `main`'s stats only
cover columns present beforehand, so the `stats[col]` lookup raises
`KeyError` and the run aborts (modelled as `none`). -/
theorem healthMain_crashes_without_code_change_column :
    healthMain dfNoCodeChange = none := by
  with_unfolding_all decide

/-- C4 counterexample: a recognized file (`stars.json`) whose JSON is
classified neither `avg_quantile` nor `series` (all keys `-raw`-suffixed)
nevertheless contributes a `kpi_stars_total` column, so the claim
"unknown layout implies an empty result" is false as stated. -/
theorem starsRawOnly_unknown_layout_contributes :
    detect_metrics_layout starsRawOnlyJson = "unknown" ∧
    parse_metric_file "stars.json" starsRawOnlyJson =
      some [("kpi_stars_total", [("2024-01", 5)])] ∧
    parse_metric_file "stars.json" starsRawOnlyJson ≠ some [] := by
  refine ⟨by decide, by decide, by decide⟩

/-- C4 amended: for every recognized metric filename other than
`stars.json`, an input classified as `unknown` layout yields an empty
result (no columns, no values); `stars.json` alone is handled by a
dedicated branch that ignores the detected layout. -/
theorem unknown_layout_yields_empty_except_stars (fname key : String) (j : J)
    (hk : METRICS_FILE_MAP.lookup fname = some key)
    (hs : fname ≠ "stars.json")
    (hu : detect_metrics_layout j = "unknown") :
    parse_metric_file fname j = some [] := by
  unfold parse_metric_file
  rw [hk, hu]
  by_cases hlat : strStartsWith key "lat_" = true
  · simp [hlat]
  · simp only [Bool.not_eq_true] at hlat
    simp [hlat, hs, parseGeneral]

/-- C4 witness: the amended theorem applied to `activity.json` on a JSON
object with no month-like key. -/
theorem unknown_layout_yields_empty_witness :
    METRICS_FILE_MAP.lookup "activity.json" = some "kpi_activity" ∧
    "activity.json" ≠ "stars.json" ∧
    detect_metrics_layout (J.obj [("x", J.num 1)]) = "unknown" ∧
    parse_metric_file "activity.json" (J.obj [("x", J.num 1)]) = some [] :=
  ⟨by decide, by decide, by decide,
   unknown_layout_yields_empty_except_stars "activity.json" "kpi_activity"
     (J.obj [("x", J.num 1)]) (by decide) (by decide) (by decide)⟩

/-- Five matching `.json` files force a nonempty `.json` filter, hence a
successful `any`. -/
theorem any_json_of_countJson {fs : List String} (h : 5 ≤ countJson fs) :
    fs.any (fun f => strEndsWith f ".json") = true := by
  have hpos : 0 < (fs.filter (fun f => strEndsWith f ".json")).length := by
    unfold countJson at h; omega
  obtain ⟨x, hx⟩ := List.exists_mem_of_length_pos hpos
  have hx' := List.mem_filter.mp hx
  exact List.any_eq_true.mpr ⟨x, hx'.1, hx'.2⟩

/-- C8 counterexample: `find_repo_dirs` classifies both `root/A` and its
strict descendant `root/A/B` (each holding five JSON files), so the
scanner does recurse into an already-classified directory and classifies
its descendants, contrary to the claim. -/
theorem find_repo_dirs_recurses_into_classified :
    find_repo_dirs exTreeNested = ["root/A", "root/A/B"] ∧
    strStartsWith "root/A/B" ("root/A" ++ "/") = true := by
  constructor
  · simp only [find_repo_dirs, exTreeNested, walkFs, walkFsList]
    with_unfolding_all decide
  · decide

/-- C8 amended: a directory path is returned by the scanner if and only
if the walk visits it (the walk visits every directory of the tree,
including descendants of already-classified directories) and it directly
contains at least five files with a `.json` extension. -/
theorem find_repo_dirs_mem_iff (root : FsDir) (p : String) :
    p ∈ find_repo_dirs root ↔
      ∃ fs, (p, fs) ∈ walkFs "" root ∧ 5 ≤ countJson fs := by
  unfold find_repo_dirs
  rw [(List.perm_insertionSort _ _).mem_iff]
  simp only [List.mem_map, List.mem_filter]
  constructor
  · rintro ⟨⟨p', fs⟩, ⟨hmem, hok⟩, rfl⟩
    refine ⟨fs, hmem, ?_⟩
    have := (Bool.and_eq_true _ _).mp hok
    exact of_decide_eq_true this.2
  · rintro ⟨fs, hmem, hcount⟩
    refine ⟨(p, fs), ⟨hmem, ?_⟩, rfl⟩
    exact (Bool.and_eq_true _ _).mpr ⟨any_json_of_countJson hcount, decide_eq_true hcount⟩

/-- C8 witness: the amended characterization applied to the nested tree,
recovering the file list of the returned nested bundle. -/
theorem find_repo_dirs_mem_iff_witness :
    ∃ fs, ("root/A/B", fs) ∈ walkFs "" exTreeNested ∧ 5 ≤ countJson fs :=
  (find_repo_dirs_mem_iff exTreeNested "root/A/B").mp
    (by
      simp only [find_repo_dirs, exTreeNested, walkFs, walkFsList]
      with_unfolding_all decide)

/-- Every month key of a series built by `floatItems` passed the
`MONTH_RE.match` filter. -/
theorem floatItems_month {l : List (String × J)} {s : MSeries}
    (h : floatItems l = some s) : ∀ kv ∈ s, monthMatch kv.1 = true := by
  intro kv hkv
  obtain ⟨x, hx, hfx⟩ := omap_mem h kv hkv
  have hfil := (List.mem_filter.mp hx).2
  cases hpf : pyFloat x.2 with
  | none => rw [hpf] at hfx; cases hfx
  | some q =>
    rw [hpf] at hfx
    simp only [Option.map_some', Option.some.injEq] at hfx
    rw [← hfx]
    exact hfil

/-- Every month key of the `-raw` stars series is a stripped key that
passed the `MONTH_RE.match` filter. -/
theorem starsRaw_month {l : List (String × J)} {s : MSeries}
    (h : starsRaw l = some s) : ∀ kv ∈ s, monthMatch kv.1 = true := by
  intro kv hkv
  obtain ⟨x, hx, hfx⟩ := omap_mem h kv hkv
  have hfil := (List.mem_filter.mp hx).2
  have hfil2 := ((Bool.and_eq_true _ _).mp hfil).2
  cases hpf : pyFloat x.2 with
  | none => rw [hpf] at hfx; cases hfx
  | some q =>
    rw [hpf] at hfx
    simp only [Option.map_some', Option.some.injEq] at hfx
    rw [← hfx]
    exact hfil2

/-- Month-key invariant for the general branch of `parse_metric_file`. -/
theorem parseGeneral_month {key layout : String} {j : J}
    {out : List (String × MSeries)} (h : parseGeneral key layout j = some out) :
    ∀ cs ∈ out, ∀ kv ∈ cs.2, monthMatch kv.1 = true := by
  unfold parseGeneral at h
  split_ifs at h
  · split at h
    next l =>
      cases hf : floatItems l with
      | none => rw [hf] at h; cases h
      | some s =>
        rw [hf] at h
        simp only [Option.map_some', Option.some.injEq] at h
        subst h
        intro cs hcs kv hkv
        rcases List.mem_singleton.mp hcs with rfl
        exact floatItems_month hf kv hkv
    next => cases h
  · split at h
    next l =>
      cases hoi : objItems (pyGet l "avg" (J.obj [])) with
      | none => rw [hoi] at h; cases h
      | some ai =>
        rw [hoi, Option.some_bind'] at h
        cases hf : floatItems ai with
        | none => rw [hf] at h; cases h
        | some s =>
          rw [hf] at h
          simp only [Option.map_some', Option.some.injEq] at h
          subst h
          intro cs hcs kv hkv
          rcases List.mem_singleton.mp hcs with rfl
          exact floatItems_month hf kv hkv
    next => cases h
  · rcases h with ⟨rfl⟩
    intro cs hcs; cases hcs

/-- Month-key invariant for the stars branch of `parse_metric_file`. -/
theorem parseStars_month {l : List (String × J)} {out : List (String × MSeries)}
    (h : parseStars l = some out) :
    ∀ cs ∈ out, ∀ kv ∈ cs.2, monthMatch kv.1 = true := by
  unfold parseStars at h
  cases hd : floatItems l with
  | none => rw [hd] at h; cases h
  | some delta =>
    rw [hd] at h
    cases hr : starsRaw l with
    | none => rw [hr] at h; cases h
    | some raw =>
      rw [hr] at h
      simp only [Option.some.injEq] at h
      subst h
      intro cs hcs kv hkv
      rcases List.mem_append.mp hcs with h1 | h2
      · split_ifs at h1
        · cases h1
        · rcases List.mem_singleton.mp h1 with rfl
          exact floatItems_month hd kv hkv
      · split_ifs at h2
        · cases h2
        · rcases List.mem_singleton.mp h2 with rfl
          exact starsRaw_month hr kv hkv

/-- C9: every month key stored in any series produced by
`parse_metric_file` satisfies `MONTH_RE.match` (Python semantics of the
pattern `^\d{4}-\d{2}$`): non-matching keys are discarded, never
stored. -/
theorem parse_metric_file_month_keys (fname : String) (j : J)
    (out : List (String × MSeries)) (h : parse_metric_file fname j = some out) :
    ∀ cs ∈ out, ∀ kv ∈ cs.2, monthMatch kv.1 = true := by
  unfold parse_metric_file at h
  split at h
  next =>
    simp only [Option.some.injEq] at h
    subst h
    intro cs hcs; cases hcs
  next key hk =>
    by_cases hlat : strStartsWith key "lat_" = true
    · rw [if_pos hlat] at h
      by_cases haq : detect_metrics_layout j = "avg_quantile"
      · rw [if_pos haq] at h
        split at h
        next l =>
          split at h
          next ai qi hmm1 hmm2 =>
            split at h
            next s1 s2 hf1 hf2 =>
              simp only [Option.some.injEq] at h
              subst h
              intro cs hcs kv hkv
              rcases List.mem_cons.mp hcs with rfl | hcs2
              · exact floatItems_month hf1 kv hkv
              · rcases List.mem_singleton.mp hcs2 with rfl
                exact floatItems_month hf2 kv hkv
            next => cases h
          next => cases h
        next => cases h
      · rw [if_neg haq] at h
        by_cases hser : detect_metrics_layout j = "series"
        · rw [if_pos hser] at h
          split at h
          next l =>
            cases hf : floatItems l with
            | none => rw [hf] at h; cases h
            | some s =>
              rw [hf] at h
              simp only [Option.map_some', Option.some.injEq] at h
              subst h
              intro cs hcs kv hkv
              rcases List.mem_singleton.mp hcs with rfl
              exact floatItems_month hf kv hkv
          next => cases h
        · rw [if_neg hser] at h
          rcases h with ⟨rfl⟩
          intro cs hcs; cases hcs
    · rw [if_neg hlat] at h
      by_cases hst : fname = "stars.json"
      · rw [if_pos hst] at h
        split at h
        next l => exact parseStars_month h
        next => exact parseGeneral_month h
      · rw [if_neg hst] at h
        exact parseGeneral_month h

/-- C9 witness: the invariant applied to a concrete parsed activity
file. -/
theorem parse_metric_file_month_keys_witness : monthMatch "2024-01" = true :=
  parse_metric_file_month_keys "activity.json" (J.obj [("2024-01", J.num 5)])
    [("kpi_activity", [("2024-01", 5)])] (by decide)
    ("kpi_activity", [("2024-01", 5)]) (by decide) ("2024-01", 5) (by decide)

/-- Every issue candidate pair passed the `first_comment_at >=
issue_created_at` guard, so its duration is nonnegative. -/
theorem issuePairs_nonneg {log : List LogRow} {rn : String} :
    ∀ e ∈ issuePairs log rn, 0 ≤ e.response_hours := by
  intro e he
  unfold issuePairs at he
  split at he
  next => cases he
  next m =>
    obtain ⟨iid, _, hmk⟩ := List.mem_filterMap.mp he
    simp only [mkIssueEv] at hmk
    split at hmk
    next created fc hc hf =>
      split_ifs at hmk with hle
      simp only [Option.some.injEq] at hmk
      subst hmk
      apply div_nonneg _ (by norm_num)
      exact_mod_cast Int.sub_nonneg.mpr hle
    next => cases hmk

/-- Every PR candidate pair passed the `pr_merged_at >= pr_created_at`
guard, so its duration is nonnegative. -/
theorem prPairs_nonneg {log : List LogRow} {rn : String} :
    ∀ e ∈ prPairs log rn, 0 ≤ e.merge_hours := by
  intro e he
  unfold prPairs at he
  split at he
  next => cases he
  next m =>
    obtain ⟨iid, _, hmk⟩ := List.mem_filterMap.mp he
    simp only [mkPrEv] at hmk
    split at hmk
    next created merged hc hf =>
      split_ifs at hmk with hle
      simp only [Option.some.injEq] at hmk
      subst hmk
      apply div_nonneg _ (by norm_num)
      exact_mod_cast Int.sub_nonneg.mpr hle
    next => cases hmk

/-- Emitted issue records are among the candidate pairs. -/
theorem mem_issuePairs_of_emitted {log : List LogRow} {rn : String} {e : IssueEv}
    (he : e ∈ emittedIssues log rn) : e ∈ issuePairs log rn :=
  (List.perm_insertionSort _ _).mem_iff.mp (List.mem_of_mem_take he)

/-- Emitted PR records are among the candidate pairs. -/
theorem mem_prPairs_of_emitted {log : List LogRow} {rn : String} {e : PrEv}
    (he : e ∈ emittedPrs log rn) : e ∈ prPairs log rn :=
  (List.perm_insertionSort _ _).mem_iff.mp (List.mem_of_mem_take he)

set_option maxRecDepth 8000 in
/-- C5 counterexample: an issue whose first comment lands at the very
minute of its creation is kept by the `>=` filter and emitted with
`response_hours = 0`, so the claim that every non-positive duration is
excluded is false as stated. -/
theorem zero_duration_evidence_emitted :
    (emittedIssues exLogZero "r").map (fun e => e.response_hours) = [0] ∧
    ∃ e ∈ emittedIssues exLogZero "r", e.response_hours ≤ 0 := by
  refine ⟨by with_unfolding_all decide, evZero, by with_unfolding_all decide, ?_⟩
  simp [evZero]

/-- C5 amended: the extractor excludes exactly the pairs with a strictly
negative duration (comment or merge strictly before creation): every
emitted duration is `≥ 0`, but zero-duration records are emitted. -/
theorem evidence_durations_never_negative (log : List LogRow) (rn : String) :
    (∀ e ∈ emittedIssues log rn, 0 ≤ e.response_hours) ∧
    (∀ e ∈ emittedPrs log rn, 0 ≤ e.merge_hours) :=
  ⟨fun e he => issuePairs_nonneg e (mem_issuePairs_of_emitted he),
   fun e he => prPairs_nonneg e (mem_prPairs_of_emitted he)⟩

set_option maxRecDepth 8000 in
/-- C5 witness: the amended theorem applied to the zero-duration log. -/
theorem evidence_durations_never_negative_witness :
    0 ≤ evZero.response_hours :=
  (evidence_durations_never_negative exLogZero "r").1 evZero
    (by with_unfolding_all decide)

/-- C6 counterexample: two issues with tied one-hour responses are both
emitted, so the emitted records are not ordered strictly descending by
duration (the order is descending with ties). -/
theorem tied_durations_not_strictly_descending :
    (emittedIssues exLogTie "r").map (fun e => e.response_hours) = [1, 1] ∧
    ¬ List.Pairwise (fun a b => b.response_hours < a.response_hours)
        (emittedIssues exLogTie "r") := by
  refine ⟨by with_unfolding_all decide, by with_unfolding_all decide⟩

/-- C6 amended: per repository and stream, at most the top five records
by duration are emitted, every emitted duration is nonnegative, and the
emitted records are ordered by non-increasing (descending, ties allowed)
duration. -/
theorem evidence_topk_nonneg_descending (log : List LogRow) (rn : String) :
    ((emittedIssues log rn).length ≤ 5 ∧
     (∀ e ∈ emittedIssues log rn, 0 ≤ e.response_hours) ∧
     List.Sorted (fun a b => b.response_hours ≤ a.response_hours)
       (emittedIssues log rn)) ∧
    ((emittedPrs log rn).length ≤ 5 ∧
     (∀ e ∈ emittedPrs log rn, 0 ≤ e.merge_hours) ∧
     List.Sorted (fun a b => b.merge_hours ≤ a.merge_hours)
       (emittedPrs log rn)) := by
  constructor
  · refine ⟨List.length_take_le 5 _, ?_, ?_⟩
    · exact fun e he => issuePairs_nonneg e (mem_issuePairs_of_emitted he)
    · haveI : IsTotal IssueEv (fun a b => b.response_hours ≤ a.response_hours) :=
        ⟨fun a b => le_total b.response_hours a.response_hours⟩
      haveI : IsTrans IssueEv (fun a b => b.response_hours ≤ a.response_hours) :=
        ⟨fun _ _ _ h1 h2 => le_trans h2 h1⟩
      exact (List.sorted_insertionSort _ _).take
  · refine ⟨List.length_take_le 5 _, ?_, ?_⟩
    · exact fun e he => prPairs_nonneg e (mem_prPairs_of_emitted he)
    · haveI : IsTotal PrEv (fun a b => b.merge_hours ≤ a.merge_hours) :=
        ⟨fun a b => le_total b.merge_hours a.merge_hours⟩
      haveI : IsTrans PrEv (fun a b => b.merge_hours ≤ a.merge_hours) :=
        ⟨fun _ _ _ h1 h2 => le_trans h2 h1⟩
      exact (List.sorted_insertionSort _ _).take

/-- C6 witness: the amended theorem applied to the tied log and to the
PR log. -/
theorem evidence_topk_nonneg_descending_witness :
    (emittedIssues exLogTie "r").length ≤ 5 ∧ 0 ≤ evTie1.response_hours ∧
    0 ≤ evPr.merge_hours :=
  ⟨(evidence_topk_nonneg_descending exLogTie "r").1.1,
   (evidence_topk_nonneg_descending exLogTie "r").1.2.1 evTie1
     (by with_unfolding_all decide),
   (evidence_topk_nonneg_descending exLogPr "r").2.2.1 evPr
     (by with_unfolding_all decide)⟩

/-- A name ending in `_avg` never ends in `_median`. -/
theorem avg_suffix_not_median : ∀ k : String, strEndsWith (k ++ "_avg") "_median" = false := by
  intro k
  unfold strEndsWith
  rw [List.isSuffixOf, String.data_append k "_avg", List.reverse_append]
  simp [List.isPrefixOf]

/-- C7: for a latency metric file, `avg_quantile` layout emits exactly
the `<key>_avg` column (series from `avg`) and the `<key>_median` column,
whose series comes from `quantile_2` when that key is present, otherwise
from `quantile_1`; `series` layout emits only the single `<key>_avg`
column and never a `_median` column. -/
theorem latency_avg_median_columns :
    (∀ (fname key : String) (l : List (String × J)) (out : List (String × MSeries)),
      METRICS_FILE_MAP.lookup fname = some key →
      strStartsWith key "lat_" = true →
      detect_metrics_layout (J.obj l) = "avg_quantile" →
      parse_metric_file fname (J.obj l) = some out →
      ∃ ai s1 qi s2,
        objItems (pyGet l "avg" (J.obj [])) = some ai ∧
        floatItems ai = some s1 ∧
        (match l.lookup "quantile_2" with
         | some q2v => objItems q2v = some qi
         | none =>
           match l.lookup "quantile_1" with
           | some q1v => objItems q1v = some qi
           | none => qi = []) ∧
        floatItems qi = some s2 ∧
        out = [("lat_" ++ latKeyBase key ++ "_avg", s1),
               ("lat_" ++ latKeyBase key ++ "_median", s2)]) ∧
    (∀ (fname key : String) (l : List (String × J)) (out : List (String × MSeries)),
      METRICS_FILE_MAP.lookup fname = some key →
      strStartsWith key "lat_" = true →
      detect_metrics_layout (J.obj l) = "series" →
      parse_metric_file fname (J.obj l) = some out →
      ∃ s, floatItems l = some s ∧ out = [(key ++ "_avg", s)] ∧
        ∀ n ∈ out.map Prod.fst, strEndsWith n "_median" = false) := by
  constructor
  · intro fname key l out hk hlat haq hp
    unfold parse_metric_file at hp
    rw [hk] at hp
    dsimp only at hp
    rw [if_pos hlat, if_pos haq] at hp
    cases hoi : objItems (pyGet l "avg" (J.obj [])) with
    | none => rw [hoi] at hp; cases hp
    | some ai =>
      rw [hoi] at hp
      cases hqi : objItems (pyGet l "quantile_2" (pyGet l "quantile_1" (J.obj []))) with
      | none => rw [hqi] at hp; cases hp
      | some qi =>
        rw [hqi] at hp
        dsimp only at hp
        cases hf1 : floatItems ai with
        | none => rw [hf1] at hp; cases hp
        | some s1 =>
          rw [hf1] at hp
          cases hf2 : floatItems qi with
          | none => rw [hf2] at hp; cases hp
          | some s2 =>
            rw [hf2] at hp
            simp only [Option.some.injEq] at hp
            refine ⟨ai, s1, qi, s2, rfl, hf1, ?_, hf2, hp.symm⟩
            cases hq2 : l.lookup "quantile_2" with
            | some q2v =>
              rw [pyGet, hq2] at hqi
              exact hqi
            | none =>
              cases hq1 : l.lookup "quantile_1" with
              | some q1v =>
                rw [pyGet, hq2, pyGet, hq1] at hqi
                exact hqi
              | none =>
                rw [pyGet, hq2, pyGet, hq1] at hqi
                simp only [Option.getD_none, objItems, Option.some.injEq] at hqi
                exact hqi.symm
  · intro fname key l out hk hlat hser hp
    unfold parse_metric_file at hp
    rw [hk] at hp
    dsimp only at hp
    have hne : detect_metrics_layout (J.obj l) ≠ "avg_quantile" := by
      rw [hser]; decide
    rw [if_pos hlat, if_neg hne, if_pos hser] at hp
    cases hf : floatItems l with
    | none => rw [hf] at hp; cases hp
    | some s =>
      rw [hf] at hp
      simp only [Option.map_some', Option.some.injEq] at hp
      refine ⟨s, rfl, hp.symm, ?_⟩
      rw [← hp]
      intro n hn
      simp only [List.map_cons, List.map_nil, List.mem_singleton] at hn
      subst hn
      exact avg_suffix_not_median key

/-- C7 witness: both layout shapes applied to concrete latency files
(`issue_response_time.json` with `avg` plus `quantile_2`, and a plain
month series). -/
theorem latency_avg_median_columns_witness :
    (∃ ai s1 qi s2,
      objItems (pyGet latAqJson "avg" (J.obj [])) = some ai ∧
      floatItems ai = some s1 ∧
      (match latAqJson.lookup "quantile_2" with
       | some q2v => objItems q2v = some qi
       | none =>
         match latAqJson.lookup "quantile_1" with
         | some q1v => objItems q1v = some qi
         | none => qi = []) ∧
      floatItems qi = some s2 ∧
      [("lat_issue_response_avg", [("2024-01", (10 : ℚ))]),
       ("lat_issue_response_median", [("2024-01", (6 : ℚ))])] =
        [("lat_" ++ latKeyBase "lat_issue_response" ++ "_avg", s1),
         ("lat_" ++ latKeyBase "lat_issue_response" ++ "_median", s2)]) ∧
    (∃ s, floatItems latSeriesJson = some s ∧
      [("lat_issue_response_avg", [("2024-01", (3 : ℚ))])] =
        [("lat_issue_response" ++ "_avg", s)] ∧
      ∀ n ∈ [("lat_issue_response_avg", [("2024-01", (3 : ℚ))])].map Prod.fst,
        strEndsWith n "_median" = false) :=
  ⟨latency_avg_median_columns.1 "issue_response_time.json" "lat_issue_response"
     latAqJson
     [("lat_issue_response_avg", [("2024-01", (10 : ℚ))]),
      ("lat_issue_response_median", [("2024-01", (6 : ℚ))])]
     (by decide) (by decide) (by decide) (by decide),
   latency_avg_median_columns.2 "issue_response_time.json" "lat_issue_response"
     latSeriesJson
     [("lat_issue_response_avg", [("2024-01", (3 : ℚ))])]
     (by decide) (by decide) (by decide) (by decide)⟩



theorem kcell_ksetCell_same (r : KRow) (c : String) (v : Option ℚ) :
    kcell (ksetCell r c v) c = v := by
  simp [kcell, ksetCell, List.lookup]

theorem kcell_ksetCell_ne (r : KRow) {c cp : String} (h : cp ≠ c) (v : Option ℚ) :
    kcell (ksetCell r c v) cp = kcell r cp := by
  have hb : (cp == c) = false := beq_eq_false_iff_ne.mpr h
  simp [kcell, ksetCell, List.lookup, hb]

theorem coalesceStep_other {cols : List String} {c cp : String} (h : cp ≠ c)
    (r : KRow) : kcell (coalesceStep cols c r) cp = kcell r cp := by
  unfold coalesceStep
  split_ifs
  · exact kcell_ksetCell_ne r h _
  · rfl

theorem coalesceStep_self {cols : List String} {c : String} (r : KRow)
    (hc : c ∈ cols) (hcl : (c ++ "_log") ∈ cols) :
    kcell (coalesceStep cols c r) c =
      qcoalesce (kcell r c) (kcell r (c ++ "_log")) := by
  unfold coalesceStep
  rw [if_pos ⟨hc, hcl⟩]
  exact kcell_ksetCell_same r c _

theorem fallbackStep_other {cols : List String} {c cp : String} (h : cp ≠ c)
    (r : KRow) : kcell (fallbackStep cols c r) cp = kcell r cp := by
  unfold fallbackStep
  split_ifs
  · exact kcell_ksetCell_ne r h _
  · exact kcell_ksetCell_ne r h _

theorem fallbackStep_self_in {cols : List String} {c : String} (r : KRow)
    (hc : c ∈ cols) :
    kcell (fallbackStep cols c r) c =
      qcoalesce (kcell r c) (kcell r (c ++ "_log")) := by
  unfold fallbackStep
  rw [if_pos hc]
  exact kcell_ksetCell_same r c _

theorem fallbackStep_self_out {cols : List String} {c : String} (r : KRow)
    (hc : c ∉ cols) :
    kcell (fallbackStep cols c r) c = kcell r (c ++ "_log") := by
  unfold fallbackStep
  rw [if_neg hc]
  exact kcell_ksetCell_same r c _

theorem lookup_mem_keys {cells : List (String × Option ℚ)} {c : String}
    {v : Option ℚ} (h : cells.lookup c = some v) : c ∈ cells.map Prod.fst := by
  induction cells with
  | nil => cases h
  | cons kv tail ih =>
    rw [List.lookup] at h
    by_cases he : c = kv.1
    · subst he; exact List.mem_cons_self _ _
    · have : (c == kv.1) = false := by simp [he]
      rw [show kv = (kv.1, kv.2) from rfl] at h
      simp only [this] at h
      exact List.mem_cons_of_mem _ (ih h)

/-- C2: after the coalesce block, each shared-concept KPI column holds
the metrics-derived value when it is non-null (regardless of the
log-derived value), and the log-derived value otherwise.  The three
columns of `coalescePairs` are only assigned when both the canonical and
`_log` columns exist (the guards of lines 410-415); commits and release
count are handled unconditionally (lines 418-426).  `hwf` states that the
row holds cells only for columns of the frame, which pandas guarantees. -/
theorem kpiMerge_metrics_precedence (m l : KTable) (r : KRow)
    (_hr : r ∈ (mergeOuter m l).rows)
    (hwf : ∀ k ∈ r.cells.map Prod.fst, k ∈ (mergeOuter m l).cols) :
    (∀ c ∈ coalescePairs,
      c ∈ (mergeOuter m l).cols → (c ++ "_log") ∈ (mergeOuter m l).cols →
      ((∀ v : ℚ, kcell r c = some v →
         kcell (coalesceRow (mergeOuter m l).cols r) c = some v) ∧
       (kcell r c = none →
         kcell (coalesceRow (mergeOuter m l).cols r) c = kcell r (c ++ "_log")))) ∧
    (∀ c ∈ (["kpi_commits_month", "kpi_release_count_month"] : List String),
      ((∀ v : ℚ, kcell r c = some v →
         kcell (coalesceRow (mergeOuter m l).cols r) c = some v) ∧
       (kcell r c = none →
         kcell (coalesceRow (mergeOuter m l).cols r) c = kcell r (c ++ "_log")))) := by
  constructor
  · intro c hc hcc hccl
    fin_cases hc
    · have hpeel : kcell (coalesceRow (mergeOuter m l).cols r) "kpi_new_issues_month" =
          kcell (coalesceStep (mergeOuter m l).cols "kpi_new_issues_month" r)
            "kpi_new_issues_month" := by
        unfold coalesceRow
        rw [fallbackStep_other (by decide), fallbackStep_other (by decide),
          coalesceStep_other (by decide), coalesceStep_other (by decide)]
      rw [hpeel, coalesceStep_self r hcc hccl]
      constructor
      · intro v hv; rw [hv]; rfl
      · intro hv; rw [hv]; rfl
    · have hpeel : kcell (coalesceRow (mergeOuter m l).cols r) "kpi_new_prs_month" =
          kcell (coalesceStep (mergeOuter m l).cols "kpi_new_prs_month"
            (coalesceStep (mergeOuter m l).cols "kpi_new_issues_month" r))
            "kpi_new_prs_month" := by
        unfold coalesceRow
        rw [fallbackStep_other (by decide), fallbackStep_other (by decide),
          coalesceStep_other (by decide)]
      have hr1 : kcell (coalesceStep (mergeOuter m l).cols "kpi_new_issues_month" r)
          "kpi_new_prs_month" = kcell r "kpi_new_prs_month" :=
        coalesceStep_other (by decide) r
      have hr2 : kcell (coalesceStep (mergeOuter m l).cols "kpi_new_issues_month" r)
          ("kpi_new_prs_month" ++ "_log") = kcell r ("kpi_new_prs_month" ++ "_log") :=
        coalesceStep_other (by decide) r
      rw [hpeel, coalesceStep_self _ hcc hccl, hr1, hr2]
      constructor
      · intro v hv; rw [hv]; rfl
      · intro hv; rw [hv]; rfl
    · have hpeel : kcell (coalesceRow (mergeOuter m l).cols r) "kpi_code_change_lines_month" =
          kcell (coalesceStep (mergeOuter m l).cols "kpi_code_change_lines_month"
            (coalesceStep (mergeOuter m l).cols "kpi_new_prs_month"
              (coalesceStep (mergeOuter m l).cols "kpi_new_issues_month" r)))
            "kpi_code_change_lines_month" := by
        unfold coalesceRow
        rw [fallbackStep_other (by decide), fallbackStep_other (by decide)]
      have hr1 : ∀ cp : String, cp = "kpi_code_change_lines_month" ∨
          cp = "kpi_code_change_lines_month" ++ "_log" →
          kcell (coalesceStep (mergeOuter m l).cols "kpi_new_prs_month"
            (coalesceStep (mergeOuter m l).cols "kpi_new_issues_month" r)) cp =
            kcell r cp := by
        rintro cp (rfl | rfl)
        · rw [coalesceStep_other (by decide), coalesceStep_other (by decide)]
        · rw [coalesceStep_other (by decide), coalesceStep_other (by decide)]
      rw [hpeel, coalesceStep_self _ hcc hccl, hr1 _ (Or.inl rfl), hr1 _ (Or.inr rfl)]
      constructor
      · intro v hv; rw [hv]; rfl
      · intro hv; rw [hv]; rfl
  · intro c hc
    fin_cases hc
    · have hr1 : ∀ cp : String, cp = "kpi_commits_month" ∨
          cp = "kpi_commits_month" ++ "_log" →
          kcell (coalesceStep (mergeOuter m l).cols "kpi_code_change_lines_month"
            (coalesceStep (mergeOuter m l).cols "kpi_new_prs_month"
              (coalesceStep (mergeOuter m l).cols "kpi_new_issues_month" r))) cp =
            kcell r cp := by
        rintro cp (rfl | rfl)
        · rw [coalesceStep_other (by decide), coalesceStep_other (by decide),
            coalesceStep_other (by decide)]
        · rw [coalesceStep_other (by decide), coalesceStep_other (by decide),
            coalesceStep_other (by decide)]
      have hpeel : kcell (coalesceRow (mergeOuter m l).cols r) "kpi_commits_month" =
          kcell (fallbackStep (mergeOuter m l).cols "kpi_commits_month"
            (coalesceStep (mergeOuter m l).cols "kpi_code_change_lines_month"
              (coalesceStep (mergeOuter m l).cols "kpi_new_prs_month"
                (coalesceStep (mergeOuter m l).cols "kpi_new_issues_month" r))))
            "kpi_commits_month" := by
        unfold coalesceRow
        rw [fallbackStep_other (by decide)]
      by_cases hcc : "kpi_commits_month" ∈ (mergeOuter m l).cols
      · rw [hpeel, fallbackStep_self_in _ hcc, hr1 _ (Or.inl rfl), hr1 _ (Or.inr rfl)]
        constructor
        · intro v hv; rw [hv]; rfl
        · intro hv; rw [hv]; rfl
      · have hnone : kcell r "kpi_commits_month" = none := by
          cases hlk : r.cells.lookup "kpi_commits_month" with
          | none => simp [kcell, hlk]
          | some w => exact absurd (hwf _ (lookup_mem_keys hlk)) hcc
        rw [hpeel, fallbackStep_self_out _ hcc, hr1 _ (Or.inr rfl)]
        constructor
        · intro v hv; rw [hnone] at hv; cases hv
        · intro _; rfl
    · have hr1 : ∀ cp : String, cp = "kpi_release_count_month" ∨
          cp = "kpi_release_count_month" ++ "_log" →
          kcell (fallbackStep (mergeOuter m l).cols "kpi_commits_month"
            (coalesceStep (mergeOuter m l).cols "kpi_code_change_lines_month"
              (coalesceStep (mergeOuter m l).cols "kpi_new_prs_month"
                (coalesceStep (mergeOuter m l).cols "kpi_new_issues_month" r)))) cp =
            kcell r cp := by
        rintro cp (rfl | rfl)
        · rw [fallbackStep_other (by decide), coalesceStep_other (by decide),
            coalesceStep_other (by decide), coalesceStep_other (by decide)]
        · rw [fallbackStep_other (by decide), coalesceStep_other (by decide),
            coalesceStep_other (by decide), coalesceStep_other (by decide)]
      by_cases hcc : "kpi_release_count_month" ∈ (mergeOuter m l).cols
      · have : kcell (coalesceRow (mergeOuter m l).cols r) "kpi_release_count_month" =
            qcoalesce (kcell r "kpi_release_count_month")
              (kcell r ("kpi_release_count_month" ++ "_log")) := by
          unfold coalesceRow
          rw [fallbackStep_self_in _ hcc, hr1 _ (Or.inl rfl), hr1 _ (Or.inr rfl)]
        rw [this]
        constructor
        · intro v hv; rw [hv]; rfl
        · intro hv; rw [hv]; rfl
      · have hnone : kcell r "kpi_release_count_month" = none := by
          cases hlk : r.cells.lookup "kpi_release_count_month" with
          | none => simp [kcell, hlk]
          | some w => exact absurd (hwf _ (lookup_mem_keys hlk)) hcc
        have : kcell (coalesceRow (mergeOuter m l).cols r) "kpi_release_count_month" =
            kcell r ("kpi_release_count_month" ++ "_log") := by
          unfold coalesceRow
          rw [fallbackStep_self_out _ hcc, hr1 _ (Or.inr rfl)]
        rw [this]
        constructor
        · intro v hv; rw [hnone] at hv; cases hv
        · intro _; rfl



theorem mem_addColName {cs : List String} {c : String} (h : c ∈ cs)
    (c2 : String) : c ∈ addColName cs c2 := by
  unfold addColName
  split_ifs
  · exact h
  · exact List.mem_append_left _ h

theorem ne_of_ends_log {c w : String} (hc : strEndsWith c "_log" = true)
    (hw : strEndsWith w "_log" = false) : c ≠ w := by
  intro he
  subst he
  rw [hc] at hw
  cases hw

/-- C10: the merge step only adds columns, never drops one: every column
of either input view survives into the persisted table (the `_log` drop
is commented out in the source), and the coalesce block leaves every
`_log`-suffixed cell untouched, so both the canonical and the `_log`
variant of each shared-concept KPI remain readable. -/
theorem merge_retains_log_columns (m l : KTable) :
    (∀ c, c ∈ m.cols ∨ c ∈ l.cols → c ∈ (mergeAndCoalesce m l).cols) ∧
    ((mergeAndCoalesce m l).rows =
      (mergeOuter m l).rows.map (coalesceRow (mergeOuter m l).cols)) ∧
    (∀ r : KRow, ∀ c : String, strEndsWith c "_log" = true →
      kcell (coalesceRow (mergeOuter m l).cols r) c = kcell r c) := by
  refine ⟨?_, rfl, ?_⟩
  · intro c hc
    have hmo : c ∈ (mergeOuter m l).cols := by
      rcases hc with h1 | h2
      · exact List.mem_append_left _ h1
      · by_cases hm : c ∈ m.cols
        · exact List.mem_append_left _ hm
        · refine List.mem_append_right _ ?_
          rw [List.mem_filter]
          exact ⟨h2, by simpa using hm⟩
    exact mem_addColName (mem_addColName hmo _) _
  · intro r c hc
    unfold coalesceRow
    rw [fallbackStep_other (ne_of_ends_log hc (by decide)),
      fallbackStep_other (ne_of_ends_log hc (by decide)),
      coalesceStep_other (ne_of_ends_log hc (by decide)),
      coalesceStep_other (ne_of_ends_log hc (by decide)),
      coalesceStep_other (ne_of_ends_log hc (by decide))]

/-- C2 witness: on the concrete joined row, the metrics value 10 beats
the log value 7 for `kpi_new_issues_month`. -/
theorem kpiMerge_metrics_precedence_witness :
    kcell (coalesceRow (mergeOuter mView lView).cols joinedRow1)
      "kpi_new_issues_month" = some 10 :=
  ((kpiMerge_metrics_precedence mView lView joinedRow1 (by decide) (by decide)).1
    "kpi_new_issues_month" (by decide) (by decide) (by decide)).1 10 (by decide)

/-- C10 witness: on the same joined row the `_log` helper column is
still readable after the coalesce block. -/
theorem merge_retains_log_columns_witness :
    kcell (coalesceRow (mergeOuter mView lView).cols joinedRow1)
      "kpi_new_issues_month_log" = some 7 := by
  rw [(merge_retains_log_columns mView lView).2.2 joinedRow1
    "kpi_new_issues_month_log" (by decide)]
  decide

end OpenPulse

namespace OpenPulse

theorem cell_buildScored_hs (r : Row) (a b c t s : ℚ) :
    cell (buildScored r a b c t s) "health_score" =
      some (max 0 (min 100 (100 * (0.25 * a + 0.25 * b + 0.20 * c + 0.10 * t + 0.20 * s)))) := rfl

theorem cell_buildScored_A (r : Row) (a b c t s : ℚ) :
    cell (buildScored r a b c t s) "score_A" = some a := rfl

theorem cell_buildScored_R (r : Row) (a b c t s : ℚ) :
    cell (buildScored r a b c t s) "score_R" = some b := rfl

theorem cell_buildScored_C (r : Row) (a b c t s : ℚ) :
    cell (buildScored r a b c t s) "score_C" = some c := rfl

theorem cell_buildScored_T (r : Row) (a b c t s : ℚ) :
    cell (buildScored r a b c t s) "score_T" = some t := rfl

theorem cell_buildScored_S (r : Row) (a b c t s : ℚ) :
    cell (buildScored r a b c t s) "score_S" = some s := rfl

theorem cell_buildScored_other {cp : String} (h : cp ∉ scoreColNames)
    (r : Row) (a b c t s : ℚ) :
    cell (buildScored r a b c t s) cp = cell r cp := by
  simp only [scoreColNames, List.mem_cons, not_or] at h
  obtain ⟨h1, h2, h3, h4, h5, h6, h7, -⟩ := h
  unfold buildScored cell
  simp only [List.lookup,
    beq_eq_false_iff_ne.mpr h7, beq_eq_false_iff_ne.mpr h6,
    beq_eq_false_iff_ne.mpr h5, beq_eq_false_iff_ne.mpr h4,
    beq_eq_false_iff_ne.mpr h3, beq_eq_false_iff_ne.mpr h2,
    beq_eq_false_iff_ne.mpr h1]

theorem scoreRow_eq {cols : List String} {stats : Stats} {r rp : Row}
    (h : scoreRow cols stats r = some rp) :
    ∃ a b c t s,
      dimScore cols stats r dimA = some a ∧
      dimScore cols stats r dimR = some b ∧
      dimScore cols stats r dimC = some c ∧
      dimScore cols stats r dimT = some t ∧
      dimScore cols stats r dimS = some s ∧
      rp = buildScored r a b c t s := by
  unfold scoreRow at h
  cases hA : dimScore cols stats r dimA with
  | none => rw [hA] at h; cases h
  | some a =>
    rw [hA] at h
    cases hR : dimScore cols stats r dimR with
    | none => rw [hR] at h; cases h
    | some b =>
      rw [hR] at h
      cases hC : dimScore cols stats r dimC with
      | none => rw [hC] at h; cases h
      | some c =>
        rw [hC] at h
        cases hT : dimScore cols stats r dimT with
        | none => rw [hT] at h; cases h
        | some t =>
          rw [hT] at h
          cases hS : dimScore cols stats r dimS with
          | none => rw [hS] at h; cases h
          | some s =>
            rw [hS] at h
            exact ⟨a, b, c, t, s, rfl, rfl, rfl, rfl, rfl,
              (Option.some.inj h).symm⟩

theorem mem_foldl_addColName {c : String} :
    ∀ (names : List String) (cs : List String), c ∈ cs →
      c ∈ names.foldl addColName cs := by
  intro names
  induction names with
  | nil => intro cs h; exact h
  | cons n rest ih => intro cs h; exact ih _ (mem_addColName h n)

theorem assembleScores_mem {cols : List String} {stats : Stats}
    {rows : List Row} {dfp : DF}
    (h : assembleScores cols stats rows = some dfp) :
    ∀ rp ∈ dfp.rows, ∃ r0 : Row,
      scoreRow cols stats r0 = some rp ∧ ∀ c, c ∈ cols → c ∈ dfp.cols := by
  unfold assembleScores at h
  split at h
  next => cases h
  next rows2 homap =>
    simp only [Option.some.injEq] at h
    subst h
    intro rp hrp
    obtain ⟨r0, hr0, hsr⟩ := omap_mem homap rp hrp
    exact ⟨r0, hsr, fun c hc => mem_foldl_addColName _ _ hc⟩

theorem compute_scores_mem {df : DF} {stats : Stats} {dfp : DF}
    (h : compute_scores df stats = some dfp) :
    ∀ rp ∈ dfp.rows, ∃ (cols2 : List String) (r0 : Row),
      scoreRow cols2 stats r0 = some rp ∧ ∀ c, c ∈ cols2 → c ∈ dfp.cols := by
  unfold compute_scores at h
  intro rp hrp
  obtain ⟨r0, hsr, hsub⟩ := assembleScores_mem h rp hrp
  exact ⟨_, r0, hsr, hsub⟩

theorem itemVal_missing_val {cols : List String} {stats : Stats} {r : Row}
    {col : String} {sg : Sign} {v : ℚ}
    (hm : col ∉ cols ∨ cell r col = none)
    (h : itemVal cols stats r col sg = some v) : v = 1 / 2 := by
  simp only [itemVal] at h
  rcases hm with hm | hm
  · rw [if_neg hm, Option.map_some'] at h
    cases sg with
    | pos => simpa using h.symm
    | neg =>
      simp only [Option.some.injEq] at h
      rw [← h]; norm_num
  · by_cases hc : col ∈ cols
    · rw [if_pos hc] at h
      cases hlk : stats.lookup col with
      | none => rw [hlk] at h; cases h
      | some mm =>
        rw [hlk] at h
        obtain ⟨mn, mx⟩ := mm
        rw [Option.map_some'] at h
        simp only [Option.some.injEq] at h
        rw [hm] at h
        have hsm : safe_minmax none mn mx = 1 / 2 := rfl
        rw [hsm] at h
        cases sg with
        | pos => exact h.symm
        | neg => rw [← h]; norm_num
    · rw [if_neg hc, Option.map_some'] at h
      simp only [Option.some.injEq] at h
      cases sg with
      | pos => exact h.symm
      | neg => rw [← h]; norm_num

theorem dimGo_missing {cols : List String} {stats : Stats} {r : Row} {w : ℚ} :
    ∀ {items : List (String × Sign)} {acc q : ℚ},
      (∀ it ∈ items, it.1 ∉ cols ∨ cell r it.1 = none) →
      dimGo cols stats r w items acc = some q →
      q = acc + w * (1 / 2) * items.length := by
  intro items
  induction items with
  | nil =>
    intro acc q _ h
    simp only [dimGo, Option.some.injEq] at h
    simp [← h]
  | cons it rest ih =>
    intro acc q hm h
    obtain ⟨c, sg⟩ := it
    rw [dimGo] at h
    cases hiv : itemVal cols stats r c sg with
    | none => rw [hiv] at h; cases h
    | some v =>
      rw [hiv] at h
      have hv : v = 1 / 2 :=
        itemVal_missing_val (hm (c, sg) (List.mem_cons_self _ _)) hiv
      have hrec := ih (fun x hx => hm x (List.mem_cons_of_mem _ hx)) h
      subst hv
      rw [hrec]
      push_cast [List.length_cons]
      ring

theorem dimScore_missing {cols : List String} {stats : Stats} {r : Row}
    {items : List (String × Sign)} {q : ℚ} (hne : items ≠ [])
    (hm : ∀ it ∈ items, it.1 ∉ cols ∨ cell r it.1 = none)
    (h : dimScore cols stats r items = some q) : q = 1 / 2 := by
  unfold dimScore at h
  have := dimGo_missing hm h
  rw [this]
  have hlen : (0 : ℚ) < items.length := by
    have : 0 < items.length := List.length_pos.mpr hne
    exact_mod_cast this
  field_simp

/-- C1: whenever the scoring run completes, every output row satisfies
`health_score = clip(100 * (0.25 score_A + 0.25 score_R + 0.20 score_C +
0.10 score_T + 0.20 score_S), 0, 100)` (hence `0 <= health_score <= 100`);
and a row in which every contributing dimension metric is absent from the
table or null gets `health_score` exactly `50`. -/
theorem healthscore_formula_bounds_and_neutral :
    (∀ (df0 dfp : DF), healthMain df0 = some dfp → ∀ rp ∈ dfp.rows,
      ∃ a b c t s,
        cell rp "score_A" = some a ∧ cell rp "score_R" = some b ∧
        cell rp "score_C" = some c ∧ cell rp "score_T" = some t ∧
        cell rp "score_S" = some s ∧
        cell rp "health_score" =
          some (max 0 (min 100
            (100 * (0.25 * a + 0.25 * b + 0.20 * c + 0.10 * t + 0.20 * s)))) ∧
        (∀ q, cell rp "health_score" = some q → 0 ≤ q ∧ q ≤ 100)) ∧
    (∀ (df0 dfp : DF), healthMain df0 = some dfp → ∀ rp ∈ dfp.rows,
      (∀ it ∈ allDimItems, it.1 ∉ dfp.cols ∨ cell rp it.1 = none) →
      cell rp "health_score" = some 50) := by
  have hmain : ∀ (df0 dfp : DF), healthMain df0 = some dfp →
      ∀ rp ∈ dfp.rows, ∃ (cols2 : List String) (r0 : Row),
        scoreRow cols2 (compute_stats
          (if "kpi_code_change_lines_month" ∈ df0.cols then
            setCol df0 "kpi_code_change_lines_month_abs"
              (fun r => (cell r "kpi_code_change_lines_month").map (fun v => |v|))
          else df0)
          (allDimCols.filter (fun c => c ∈
            (if "kpi_code_change_lines_month" ∈ df0.cols then
              setCol df0 "kpi_code_change_lines_month_abs"
                (fun r => (cell r "kpi_code_change_lines_month").map (fun v => |v|))
            else df0).cols))) r0 = some rp ∧
        ∀ c, c ∈ cols2 → c ∈ dfp.cols := by
    intro df0 dfp h
    unfold healthMain at h
    exact compute_scores_mem h
  constructor
  · intro df0 dfp h rp hrp
    obtain ⟨cols2, r0, hsr, _⟩ := hmain df0 dfp h rp hrp
    obtain ⟨a, b, c, t, s, _, _, _, _, _, hb⟩ := scoreRow_eq hsr
    subst hb
    refine ⟨a, b, c, t, s, cell_buildScored_A .., cell_buildScored_R ..,
      cell_buildScored_C .., cell_buildScored_T .., cell_buildScored_S ..,
      cell_buildScored_hs .., ?_⟩
    intro q hq
    rw [cell_buildScored_hs] at hq
    simp only [Option.some.injEq] at hq
    subst hq
    constructor
    · exact le_max_left _ _
    · exact max_le (by norm_num) (min_le_left _ _)
  · intro df0 dfp h rp hrp hmiss
    obtain ⟨cols2, r0, hsr, hsub⟩ := hmain df0 dfp h rp hrp
    obtain ⟨a, b, c, t, s, hA, hR, hC, hT, hS, hb⟩ := scoreRow_eq hsr
    have hmiss0 : ∀ it ∈ allDimItems, it.1 ∉ cols2 ∨ cell r0 it.1 = none := by
      intro it hit
      have hnotscore : it.1 ∉ scoreColNames := by
        revert hit
        revert it
        decide
      rcases hmiss it hit with hm | hm
      · exact Or.inl (fun hin => hm (hsub _ hin))
      · right
        rw [hb, cell_buildScored_other hnotscore] at hm
        exact hm
    have missA : ∀ it ∈ dimA, it.1 ∉ cols2 ∨ cell r0 it.1 = none :=
      fun it hit => hmiss0 it
        (by simp only [allDimItems, List.mem_append]; tauto)
    have missR : ∀ it ∈ dimR, it.1 ∉ cols2 ∨ cell r0 it.1 = none :=
      fun it hit => hmiss0 it
        (by simp only [allDimItems, List.mem_append]; tauto)
    have missC : ∀ it ∈ dimC, it.1 ∉ cols2 ∨ cell r0 it.1 = none :=
      fun it hit => hmiss0 it
        (by simp only [allDimItems, List.mem_append]; tauto)
    have missT : ∀ it ∈ dimT, it.1 ∉ cols2 ∨ cell r0 it.1 = none :=
      fun it hit => hmiss0 it
        (by simp only [allDimItems, List.mem_append]; tauto)
    have missS : ∀ it ∈ dimS, it.1 ∉ cols2 ∨ cell r0 it.1 = none :=
      fun it hit => hmiss0 it
        (by simp only [allDimItems, List.mem_append]; tauto)
    have ha : a = 1 / 2 := dimScore_missing (by decide) missA hA
    have hb2 : b = 1 / 2 := dimScore_missing (by decide) missR hR
    have hc : c = 1 / 2 := dimScore_missing (by decide) missC hC
    have ht : t = 1 / 2 := dimScore_missing (by decide) missT hT
    have hs : s = 1 / 2 := dimScore_missing (by decide) missS hS
    subst ha hb2 hc ht hs
    rw [hb, cell_buildScored_hs]
    norm_num


/-- C1 witness: the neutral-row part applied to a one-row table whose
only metric cell is null, producing `health_score = 50` exactly. -/
theorem healthscore_formula_witness :
    cell rowAllMissingOut "health_score" = some 50 :=
  healthscore_formula_bounds_and_neutral.2 dfAllMissing dfAllMissingOut
    (by with_unfolding_all decide) rowAllMissingOut
    (by with_unfolding_all decide) (by with_unfolding_all decide)

end OpenPulse
